import Mathlib

/-
Verification development for the QMQTT2SQL ingestion and deduplication
pipeline (MqttSubscriber / Mqtt2SqlConfig). The definitions below are a
shallow embedding of the source: pure fragments become Lean functions,
the SQL and MQTT environments become explicit records of outcomes, and
Qt library behaviour (QVariant, qFuzzyCompare, QJsonDocument) is modelled
after Qt 5.15, the version the project builds against.
-/

namespace QMqtt2Sql

/-- Exact rationals with an executable, kernel-reducible arithmetic,
used to model machine floating-point values (the rounding of doubles
and floats is abstracted away; the comparison formulas keep Qt's exact
coefficients). The denominator is kept positive and the fraction
reduced by construction, so structural equality is value equality on
every value the model builds. -/
structure Frac where
  num : Int
  den : Nat
deriving DecidableEq, Repr

/-- Build a reduced fraction from a numerator and a positive
denominator (a zero denominator yields 0, it never arises). -/
def Frac.mk' (n : Int) (d : Nat) : Frac :=
  if d = 0 then ⟨0, 1⟩
  else
    let g := Nat.gcd n.natAbs d
    ⟨n / (g : Int), d / g⟩

/-- The integer n as a fraction. -/
def Frac.ofInt (n : Int) : Frac := ⟨n, 1⟩

/-- The natural number n as a fraction. -/
def Frac.ofNat (n : Nat) : Frac := ⟨(n : Int), 1⟩

/-- Fraction addition. -/
def Frac.add (a b : Frac) : Frac :=
  Frac.mk' (a.num * (b.den : Int) + b.num * (a.den : Int)) (a.den * b.den)

/-- Fraction negation. -/
def Frac.neg (a : Frac) : Frac := ⟨-a.num, a.den⟩

/-- Fraction subtraction. -/
def Frac.sub (a b : Frac) : Frac := a.add b.neg

/-- Fraction multiplication. -/
def Frac.mul (a b : Frac) : Frac :=
  Frac.mk' (a.num * b.num) (a.den * b.den)

/-- Absolute value. -/
def Frac.fabs (a : Frac) : Frac := ⟨(a.num.natAbs : Int), a.den⟩

/-- Order comparison by cross multiplication (denominators are
positive by construction). -/
def Frac.leb (a b : Frac) : Bool :=
  decide (a.num * (b.den : Int) ≤ b.num * (a.den : Int))

/-- Minimum. -/
def Frac.minF (a b : Frac) : Frac := if a.leb b then a else b

/-- Multiply by a (possibly negative) power of ten, for scientific
notation. -/
def Frac.mulPow10 (a : Frac) (e : Int) : Frac :=
  match e with
  | .ofNat k => a.mul ⟨((10 : Nat) ^ k : Nat), 1⟩
  | .negSucc k => a.mul (Frac.mk' 1 ((10 : Nat) ^ (k + 1)))

/-- Round to the nearest integer, halves away from zero (Qt's qRound
applied by number-to-integer conversions). -/
def Frac.qround (a : Frac) : Int :=
  if 0 ≤ a.num then ((2 * a.num.natAbs + a.den) / (2 * a.den) : Nat)
  else -(((2 * a.num.natAbs + a.den) / (2 * a.den) : Nat))

/-- Model of Qt's QVariant restricted to the value kinds this program
produces and stores: the default-constructed invalid variant, booleans,
integers, doubles and strings. -/
inductive QVal where
  | invalid : QVal
  | vbool : Bool → QVal
  | vint : Int → QVal
  | vdouble : Frac → QVal
  | vstring : String → QVal
deriving DecidableEq, Repr

/-- The four storable QVariant type tags the config may declare
(QVariant::Bool, Int, Double, String). -/
inductive QType where
  | tbool : QType
  | tint : QType
  | tdouble : QType
  | tstring : QType
deriving DecidableEq, Repr

/-- QVariant::type() restricted to the modelled kinds; none for the
invalid variant. -/
def QVal.typeOf : QVal → Option QType
  | .invalid => none
  | .vbool _ => some .tbool
  | .vint _ => some .tint
  | .vdouble _ => some .tdouble
  | .vstring _ => some .tstring

/-- QVariant::isNull for the modelled kinds: true exactly for the
default-constructed invalid variant. -/
def QVal.isNull : QVal → Bool
  | .invalid => true
  | _ => false

/-- Model of Qt's qFuzzyCompare for double arguments:
qAbs(p1 - p2) * 1000000000000. <= qMin(qAbs(p1), qAbs(p2)). -/
def qFuzzyCompareD (p1 p2 : Frac) : Bool :=
  ((p1.sub p2).fabs.mul (Frac.ofNat 1000000000000)).leb ((p1.fabs).minF (p2.fabs))

/-- Model of Qt's qFuzzyCompare for float arguments:
qAbs(p1 - p2) * 100000.f <= qMin(qAbs(p1), qAbs(p2)). -/
def qFuzzyCompareF (p1 p2 : Frac) : Bool :=
  ((p1.sub p2).fabs.mul (Frac.ofNat 100000)).leb ((p1.fabs).minF (p2.fabs))

/-- qIsNumericType: booleans, integers and doubles take the numeric
comparison path in Qt's QVariant equality. -/
def QVal.isNumeric : QVal → Bool
  | .vbool _ => true
  | .vint _ => true
  | .vdouble _ => true
  | _ => false

/-- Whether the variant holds a floating-point value. -/
def QVal.isFloat : QVal → Bool
  | .vdouble _ => true
  | _ => false

/-- The numeric payload read as a real number (qConvertToRealNumber). -/
def QVal.toRealQ : QVal → Frac
  | .vbool b => cond b (Frac.ofNat 1) (Frac.ofNat 0)
  | .vint n => Frac.ofInt n
  | .vdouble q => q
  | _ => Frac.ofNat 0

/-- The numeric payload read as an integer (integralCompare's promotion
to qlonglong); doubles never take this path. -/
def QVal.toIntegral : QVal → Int
  | .vbool b => cond b 1 0
  | .vint n => n
  | _ => 0

/-- Model of Qt 5.15 QVariant equality (qvariant.cpp cmp) for the kinds
this program compares: two numeric variants are compared numerically,
taking the real-number path when either side is floating point, where
equality is exact equality or qFuzzyCompare on doubles (Qt 5 performs
the fuzzy comparison to counter conversion precision loss); integral
pairs compare exactly; strings compare exactly; two invalid variants
are equal. Cross-kind conversion fallbacks are not modelled: every
comparison this program performs is between same-typed variants. -/
def qvariantEq (a b : QVal) : Bool :=
  match a, b with
  | .invalid, .invalid => true
  | .vstring s, .vstring t => decide (s = t)
  | a, b =>
    if a.isNumeric && b.isNumeric then
      if a.isFloat || b.isFloat then
        decide (a.toRealQ = b.toRealQ) || qFuzzyCompareD a.toRealQ b.toRealQ
      else decide (a.toIntegral = b.toIntegral)
    else false

/-- Whitespace characters skipped by the JSON and number scanners. -/
def isWsChar (c : Char) : Bool :=
  c = ' ' || c = '\t' || c = '\n' || c = '\r'

/-- Drop leading whitespace. -/
def skipWs : List Char → List Char
  | [] => []
  | c :: cs => if isWsChar c then skipWs cs else c :: cs

/-- Numeric value of a decimal digit character. -/
def digitVal (c : Char) : Nat := c.toNat - 48

/-- Value of a list of decimal digit characters. -/
def natOfDigits (ds : List Char) : Nat :=
  ds.foldl (fun acc c => acc * 10 + digitVal c) 0

/-- Scan a decimal number (optional minus, integer part, optional
fraction, optional exponent) off the front of a character list,
returning its rational value and the unconsumed rest. Models the
number grammar shared by JSON and by QString's numeric conversions. -/
def parseNum (cs : List Char) : Option (Frac × List Char) :=
  let signSplit : Bool × List Char :=
    match cs with
    | '-' :: rest => (true, rest)
    | _ => (false, cs)
  let neg := signSplit.1
  let cs1 := signSplit.2
  let intSplit := cs1.span (fun c => c.isDigit)
  let ds := intSplit.1
  let cs2 := intSplit.2
  if ds.isEmpty then none
  else
    let ip : Frac := Frac.ofNat (natOfDigits ds)
    let withFrac : Option (Frac × List Char) :=
      match cs2 with
      | '.' :: rest =>
        let fracSplit := rest.span (fun c => c.isDigit)
        if fracSplit.1.isEmpty then none
        else
          some (ip.add (Frac.mk' (natOfDigits fracSplit.1 : Int) ((10 : Nat) ^ fracSplit.1.length)),
            fracSplit.2)
      | _ => some (ip, cs2)
    match withFrac with
    | none => none
    | some (m, cs3) =>
      let withExp : Option (Frac × List Char) :=
        match cs3 with
        | c :: rest =>
          if c = 'e' || c = 'E' then
            let expSignSplit : Bool × List Char :=
              match rest with
              | '+' :: r => (false, r)
              | '-' :: r => (true, r)
              | _ => (false, rest)
            let expSplit := expSignSplit.2.span (fun c => c.isDigit)
            if expSplit.1.isEmpty then none
            else
              let e : Int :=
                if expSignSplit.1 then -(natOfDigits expSplit.1 : Int)
                else (natOfDigits expSplit.1 : Int)
              some (m.mulPow10 e, expSplit.2)
          else some (m, cs3)
        | [] => some (m, cs3)
      withExp.map (fun p => (if neg then p.1.neg else p.1, p.2))

/-- Model of QString::toDouble: the whole string (surrounding whitespace
allowed) must be a decimal number, otherwise the conversion fails. -/
def ratOfString (s : String) : Option Frac :=
  match parseNum (skipWs s.data) with
  | some (q, rest) => if (skipWs rest).isEmpty then some q else none
  | none => none

/-- Model of QString::toInt: the whole string (surrounding whitespace
allowed) must be a decimal integer. -/
def intOfString (s : String) : Option Int :=
  let trimmed := skipWs s.data
  let signSplit : Bool × List Char :=
    match trimmed with
    | '-' :: rest => (true, rest)
    | '+' :: rest => (false, rest)
    | _ => (false, trimmed)
  let digitSplit := signSplit.2.span (fun c => c.isDigit)
  if digitSplit.1.isEmpty then none
  else if (skipWs digitSplit.2).isEmpty then
    some (if signSplit.1 then -(natOfDigits digitSplit.1 : Int) else (natOfDigits digitSplit.1 : Int))
  else none

/-- A digits-only string read as a natural number (used for array steps
in path navigation). -/
def natOfString (s : String) : Option Nat :=
  if s ≠ "" && s.data.all (fun c => c.isDigit) then some (natOfDigits s.data) else none

/-- QVariant::toFloat: numeric payloads read as a real number, strings
parsed (0 on failure), anything else 0. Float rounding is abstracted. -/
def QVal.toFloat : QVal → Frac
  | .vbool b => cond b (Frac.ofNat 1) (Frac.ofNat 0)
  | .vint n => Frac.ofInt n
  | .vdouble q => q
  | .vstring s => (ratOfString s).getD (Frac.ofNat 0)
  | .invalid => Frac.ofNat 0

/-- Textual rendering used by QVariant's conversions to QString; the
exact digit rendering of numbers is abstract (never compared in this
development). -/
def QVal.renderText : QVal → String
  | .vbool b => cond b "true" "false"
  | .vint n => toString n
  | .vdouble q => toString q.num ++ "/" ++ toString q.den
  | _ => ""

/-- Model of QVariant::convert(targetTypeId) for the four storable
types: some v when the conversion succeeds with result v, none when
convert returns false. The invalid variant converts to nothing
(canConvert is false for it). String-to-number conversions succeed only
on numeric strings; string-to-bool is false for empty, "0" and "false"
and true otherwise; number-to-int rounds. -/
def QVal.convert : QVal → QType → Option QVal
  | .invalid, _ => none
  | .vstring s, .tstring => some (.vstring s)
  | v, .tstring => some (.vstring v.renderText)
  | .vdouble q, .tdouble => some (.vdouble q)
  | .vint n, .tdouble => some (.vdouble (Frac.ofInt n))
  | .vbool b, .tdouble => some (.vdouble (cond b (Frac.ofNat 1) (Frac.ofNat 0)))
  | .vstring s, .tdouble => (ratOfString s).map .vdouble
  | .vint n, .tint => some (.vint n)
  | .vdouble q, .tint => some (.vint q.qround)
  | .vbool b, .tint => some (.vint (cond b 1 0))
  | .vstring s, .tint => (intOfString s).map .vint
  | .vbool b, .tbool => some (.vbool b)
  | .vint n, .tbool => some (.vbool (decide (n ≠ 0)))
  | .vdouble q, .tbool => some (.vbool (decide (q.num ≠ 0)))
  | .vstring s, .tbool => some (.vbool (!(s = "" || s = "0" || s = "false")))

/-- JSON documents as parsed by Qt. JSON numbers are modelled as
rationals (QJsonValue stores them as doubles; rounding abstracted). -/
inductive Json where
  | null : Json
  | jbool : Bool → Json
  | jnum : Frac → Json
  | jstr : String → Json
  | jarr : List Json → Json
  | jobj : List (String × Json) → Json

/-- The opening brace character. -/
def lbrace : Char := Char.ofNat 123

/-- The closing brace character. -/
def rbrace : Char := Char.ofNat 125

/-- Map a JSON escape letter to the escaped character. -/
def escChar (c : Char) : Option Char :=
  if c = '"' then some '"'
  else if c = '\\' then some '\\'
  else if c = '/' then some '/'
  else if c = 'n' then some '\n'
  else if c = 't' then some '\t'
  else if c = 'r' then some '\r'
  else if c = 'b' then some (Char.ofNat 8)
  else if c = 'f' then some (Char.ofNat 12)
  else none

/-- Scan a JSON string literal body (after the opening quote), handling
the single-letter escapes; unicode escapes are not modelled. Returns
the string and the rest after the closing quote. -/
def parseStrAux (acc : List Char) : List Char → Option (String × List Char)
  | [] => none
  | c :: cs =>
    if c = '"' then some (String.mk acc.reverse, cs)
    else if c = '\\' then
      match cs with
      | [] => none
      | e :: cs2 =>
        match escChar e with
        | some ec => parseStrAux (ec :: acc) cs2
        | none => none
    else parseStrAux (c :: acc) cs

mutual

/-- Fuel-indexed recursive-descent JSON value scanner (model of the
parser behind QJsonDocument::fromJson). -/
def parseJsonValue : Nat → List Char → Option (Json × List Char)
  | 0, _ => none
  | Nat.succ fuel, cs =>
    match skipWs cs with
    | 't' :: 'r' :: 'u' :: 'e' :: rest => some (.jbool true, rest)
    | 'f' :: 'a' :: 'l' :: 's' :: 'e' :: rest => some (.jbool false, rest)
    | 'n' :: 'u' :: 'l' :: 'l' :: rest => some (.null, rest)
    | '"' :: rest => (parseStrAux [] rest).map (fun p => (.jstr p.1, p.2))
    | '[' :: rest =>
      (match skipWs rest with
       | ']' :: rest2 => some (.jarr [], rest2)
       | rest2 => (parseJsonElems fuel rest2).map (fun p => (.jarr p.1, p.2)))
    | c :: rest =>
      if c = lbrace then
        match skipWs rest with
        | c2 :: rest2 =>
          if c2 = rbrace then some (.jobj [], rest2)
          else (parseJsonMembers fuel (c2 :: rest2)).map (fun p => (.jobj p.1, p.2))
        | [] => none
      else (parseNum (c :: rest)).map (fun p => (.jnum p.1, p.2))
    | [] => none

/-- Scan one or more comma-separated object members up to the closing
brace (position: after the opening brace, object known non-empty). -/
def parseJsonMembers : Nat → List Char → Option (List (String × Json) × List Char)
  | 0, _ => none
  | Nat.succ fuel, cs =>
    match skipWs cs with
    | '"' :: cs1 =>
      match parseStrAux [] cs1 with
      | none => none
      | some (k, cs2) =>
        match skipWs cs2 with
        | ':' :: cs3 =>
          match parseJsonValue fuel cs3 with
          | none => none
          | some (v, cs4) =>
            match skipWs cs4 with
            | c :: cs5 =>
              if c = ',' then
                (parseJsonMembers fuel cs5).map (fun p => ((k, v) :: p.1, p.2))
              else if c = rbrace then some ([(k, v)], cs5)
              else none
            | [] => none
        | _ => none
    | _ => none

/-- Scan one or more comma-separated array elements up to the closing
bracket (position: after the opening bracket, array known non-empty). -/
def parseJsonElems : Nat → List Char → Option (List Json × List Char)
  | 0, _ => none
  | Nat.succ fuel, cs =>
    match parseJsonValue fuel cs with
    | none => none
    | some (v, cs1) =>
      match skipWs cs1 with
      | ',' :: cs2 => (parseJsonElems fuel cs2).map (fun p => (v :: p.1, p.2))
      | ']' :: cs2 => some ([v], cs2)
      | _ => none

end

/-- Model of QJsonDocument::fromJson (Qt 5): the whole payload must be
one JSON document with an object or array at top level; some doc on
success, none on a parse error. -/
def jsonParse (s : String) : Option Json :=
  match parseJsonValue (s.length + 1) s.data with
  | some (j, rest) =>
    if (skipWs rest).isEmpty then
      match j with
      | .jobj _ => some j
      | .jarr _ => some j
      | _ => none
    else none
  | none => none

/-- The QVariant a resolved JSON value is handed over as: null maps to
the invalid variant (so the caller's isNull test treats it as absent),
scalars map to their variant kinds; containers are not selectable
results in this model. -/
def jsonValueToVariant : Json → QVal
  | .null => .invalid
  | .jbool b => .vbool b
  | .jnum q => .vdouble q
  | .jstr s => .vstring s
  | .jarr _ => .invalid
  | .jobj _ => .invalid

/-- Walk a parsed document along a list of steps: a step selects an
object member by key, or an array element by decimal position. -/
def navigate : Json → List String → Option Json
  | j, [] => some j
  | .jobj ms, k :: rest =>
    match List.lookup k ms with
    | some v => navigate v rest
    | none => none
  | .jarr es, k :: rest =>
    match natOfString k with
    | some i =>
      match es[i]? with
      | some v => navigate v rest
      | none => none
    | none => none
  | _, _ :: _ => none

/-- Split a character list at the dots. -/
def splitDotAux (acc : List Char) : List Char → List (List Char)
  | [] => [acc.reverse]
  | c :: cs =>
    if c = '.' then acc.reverse :: splitDotAux [] cs
    else splitDotAux (c :: acc) cs

/-- Split a path expression into navigation steps: dot-separated, with
an optional leading root marker. -/
def pathSegs (path : String) : List String :=
  match (splitDotAux [] path.data).map String.mk with
  | "$" :: rest => rest
  | segs => segs

/-- Modelled from the spec: QtJsonPath::getValue. The helper is pulled
in via qtjsonpath.h but its source is not part of this repository. Per
the spec, a structured path is "an expression selecting a nested value
inside a parsed JSON document", and evaluation fails when "the path
does not exist, or resolves to an absent/null value"; the failure shows
up as a null QVariant at the caller. -/
def getValue (doc : Json) (path : String) : QVal :=
  match navigate doc (pathSegs path) with
  | some j => jsonValueToVariant j
  | none => .invalid

/-- The extraction failures of MqttSubscriber::handleMessage, part_005
lines 364-377. -/
inductive ExtractionError where
  | malformedPayload : ExtractionError
  | pathNotFound : ExtractionError
deriving DecidableEq, Repr

/-- Result of the extraction block: the value the outer variable holds,
or the early return taken. -/
inductive ExtractResult where
  | ok : QVal → ExtractResult
  | fail : ExtractionError → ExtractResult
deriving DecidableEq, Repr

/-- Lines 357-378 of MqttSubscriber::handleMessage (part_005): the value
held by the OUTER variable v when control reaches the database section.
Empty jsonpath: v is the payload as UTF-8 text (payloads are modelled
as their decoded text; QString::fromUtf8 is total). Non-empty jsonpath:
the payload is parsed (early return on a parse error) and the path is
resolved (early return when the result is null) — but line 372 declares
a NEW local `QVariant v` that shadows the outer v, so on success the
outer v is still the default-constructed invalid variant. -/
def extractOuterValue (jsonpath : String) (payload : String) : ExtractResult :=
  if jsonpath.data.isEmpty then .ok (.vstring payload)
  else
    match jsonParse payload with
    | none => .fail .malformedPayload
    | some doc =>
      let inner := getValue doc jsonpath
      if inner.isNull then .fail .pathNotFound
      else .ok .invalid

/-- Outcome of the `SELECT value FROM <table> WHERE sensorId=<id> ORDER
BY ts DESC LIMIT 1` the change detector issues on a cache miss: whether
exec succeeded, and the row it returned, if any. -/
structure SelectOutcome where
  execOk : Bool
  row : Option QVal
deriving DecidableEq, Repr

/-- The in-memory last-value cache m_lastvalues : QMap of sensorId to
the most recently persisted QVariant. -/
abbrev LastValues := List (Int × QVal)

/-- QMap lookup. -/
def lookupLastValue (cache : LastValues) (sensorId : Int) : Option QVal :=
  List.lookup sensorId cache

/-- QMap assignment m_lastvalues[sensorId] = v. -/
def setLastValue (cache : LastValues) (sensorId : Int) (v : QVal) : LastValues :=
  (sensorId, v) :: cache.filter (fun p => p.1 != sensorId)

/-- MqttSubscriber::compareToPreviousValue (part_005 lines 278-306).
Returns (whether the new value counts as identical to the previous one,
how many SELECT statements were executed). Cache hit: QVariant equality
against the cached value, before any SQL. Cache miss: run the SELECT;
a returned row is compared with the float qFuzzyCompare when the new
value is a double and with QVariant equality otherwise; no row, or a
failed exec, falls through to false. -/
def compareToPreviousValue (cache : LastValues) (sensorId : Int) (newValue : QVal)
    (sel : SelectOutcome) : Bool × Nat :=
  match lookupLastValue cache sensorId with
  | some lastValue => (qvariantEq newValue lastValue, 0)
  | none =>
    if sel.execOk then
      match sel.row with
      | some lastValue =>
        (if newValue.typeOf = some .tdouble then
            qFuzzyCompareF newValue.toFloat lastValue.toFloat
          else qvariantEq newValue lastValue, 1)
      | none => (false, 1)
    else (false, 1)

/-- One topic rule (MqttTopicConfig): subscription pattern, extraction
path, declared value type, sensor identity, and the scale factor from
Mqtt2SqlConfig::parse (part_004 lines 79-85: quiet NaN unless the INI
value parses as a float — none models NaN/absent here). -/
structure MqttTopicConfig where
  topic : String
  jsonpath : String
  type : QType
  sensorId : Int
  scale : Option Frac
deriving DecidableEq, Repr

/-- Outcomes of the SQL calls handleMessage can make: whether the
database handle is valid and open, the change detector's SELECT
outcome, and whether prepare/exec of the INSERT succeed. -/
structure SqlEnv where
  dbOpen : Bool
  sel : SelectOutcome
  prepOk : Bool
  insertOk : Bool
deriving DecidableEq, Repr

/-- How MqttSubscriber::handleMessage disposes of one message. -/
inductive MsgOutcome where
  | parseError : MsgOutcome
  | pathNotFound : MsgOutcome
  | dbNotOpen : MsgOutcome
  | convertFailed : MsgOutcome
  | skipped : MsgOutcome
  | prepFailed : MsgOutcome
  | insertFailed : MsgOutcome
  | inserted : QVal → MsgOutcome
deriving DecidableEq, Repr

/-- Result of one handleMessage call: the outcome, the cache afterwards,
and how many INSERT statements were executed. -/
structure MsgResult where
  outcome : MsgOutcome
  cache : LastValues
  insertAttempts : Nat
deriving DecidableEq, Repr

/-- MqttSubscriber::handleMessage (part_005 lines 352-426): extraction
block (see extractOuterValue), then the database-open test, then
v.convert(config.type) — on failure the message is silently dropped —
then the change decision; an unchanged value is skipped, otherwise the
INSERT is prepared and executed, and only a successful exec updates
m_lastvalues[config.sensorId]. -/
def handleMessage (config : MqttTopicConfig) (env : SqlEnv) (cache : LastValues)
    (payload : String) : MsgResult :=
  match extractOuterValue config.jsonpath payload with
  | .fail .malformedPayload => ⟨.parseError, cache, 0⟩
  | .fail .pathNotFound => ⟨.pathNotFound, cache, 0⟩
  | .ok v =>
    if env.dbOpen then
      match v.convert config.type with
      | none => ⟨.convertFailed, cache, 0⟩
      | some v1 =>
        if (compareToPreviousValue cache config.sensorId v1 env.sel).1 then
          ⟨.skipped, cache, 0⟩
        else if env.prepOk then
          if env.insertOk then
            ⟨.inserted v1, setLastValue cache config.sensorId v1, 1⟩
          else ⟨.insertFailed, cache, 1⟩
        else ⟨.prepFailed, cache, 0⟩
    else ⟨.dbNotOpen, cache, 0⟩

/-- The dispatcher's per-subscription loop: handle the messages of one
rule subscription in arrival order, threading the cache; collects each
message's outcome. -/
def processMessages (env : SqlEnv) (cache : LastValues) :
    List (MqttTopicConfig × String) → LastValues × List MsgOutcome
  | [] => (cache, [])
  | (cfg, p) :: rest =>
    let r := handleMessage cfg env cache p
    let t := processMessages env r.cache rest
    (t.1, r.outcome :: t.2)

/-- The <prefix>_sensors_seen table: one row per topic with its data
column (the lastseen timestamp is abstracted away). -/
abbrev SeenTable := List (String × String)

/-- Effect on the seen-table of `INSERT ... ON CONFLICT (topic) DO
UPDATE SET lastseen = NOW(), data = :data`: one row per topic key,
overwritten when the key already exists. -/
def upsertSeen (table : SeenTable) (topic dat : String) : SeenTable :=
  if table.any (fun r => r.1 == topic) then
    table.map (fun r => if r.1 == topic then (r.1, dat) else r)
  else (topic, dat) :: table

/-- The catch-all bookkeeping state: m_seenTopics plus the seen-table. -/
structure SeenState where
  seenTopics : List String
  table : SeenTable
deriving DecidableEq, Repr

/-- Outcomes of the SQL calls handleAnyMessage can make. -/
structure SeenEnv where
  dbOpen : Bool
  prepOk : Bool
  execOk : Bool
deriving DecidableEq, Repr

/-- Result of one handleAnyMessage call: the state afterwards and how
many upsert statements were executed. -/
structure AnyResult where
  state : SeenState
  upsertAttempts : Nat
deriving DecidableEq, Repr

/-- MqttSubscriber::handleAnyMessage (part_005 lines 314-344), with
wasTopicSeen = m_seenTopics.contains (mqttsubscriber.h line 50): an
already-seen topic returns immediately; otherwise the topic is appended
to m_seenTopics before any SQL, and the upsert is prepared and executed
when the database is open; only a successful exec changes the table. -/
def handleAnyMessage (env : SeenEnv) (st : SeenState) (topic payload : String) : AnyResult :=
  if st.seenTopics.contains topic then ⟨st, 0⟩
  else
    let seen1 := st.seenTopics ++ [topic]
    if env.dbOpen then
      if env.prepOk then
        if env.execOk then ⟨⟨seen1, upsertSeen st.table topic payload⟩, 1⟩
        else ⟨⟨seen1, st.table⟩, 1⟩
      else ⟨⟨seen1, st.table⟩, 0⟩
    else ⟨⟨seen1, st.table⟩, 0⟩

/-- The dispatcher's catch-all loop over (topic, payload) messages in
arrival order, totalling the executed upserts. -/
def runAnyMessages (env : SeenEnv) (st : SeenState) :
    List (String × String) → SeenState × Nat
  | [] => (st, 0)
  | (t, p) :: rest =>
    let r := handleAnyMessage env st t p
    let q := runAnyMessages env r.state rest
    (q.1, r.upsertAttempts + q.2)

/-- The per-message error outcomes the error-handling policy covers:
JSON parse failure, path resolving to null, type-conversion failure,
and SQL insert failure. -/
def MsgOutcome.isPerMessageError : MsgOutcome → Bool
  | .parseError => true
  | .pathNotFound => true
  | .convertFailed => true
  | .insertFailed => true
  | _ => false

/-- An environment where the database is open and every SQL call
succeeds, with an empty SELECT result (no previous row). -/
def envAllOk : SqlEnv := ⟨true, ⟨true, none⟩, true, true⟩

/-- The spec's scenario-A payload, the text of a JSON object binding
"value" to 21.5. -/
def scenarioAPayload : String := "\x7b\"value\": 21.5\x7d"

/-- The spec's scenario-A rule: path $.value, floating-point type,
scale absent. -/
def scenarioARule : MqttTopicConfig := ⟨"sensors/temp", "$.value", .tdouble, 1, none⟩

/-- A catch-all environment where the database is open and every SQL
call succeeds. -/
def seenEnvOk : SeenEnv := ⟨true, true, true⟩

/-- QVariant equality is reflexive on every modelled kind. -/
theorem qvariantEq_refl (v : QVal) : qvariantEq v v = true := by
  cases v <;>
    simp [qvariantEq, QVal.isNumeric, QVal.isFloat, QVal.toRealQ, QVal.toIntegral]

/-- Looking up a key right after setting it yields the stored value. -/
theorem lookupLastValue_set (cache : LastValues) (sid : Int) (v : QVal) :
    lookupLastValue (setLastValue cache sid v) sid = some v := by
  simp [lookupLastValue, setLastValue, List.lookup]

/-- A successful insert leaves the cache with exactly the inserted
value under the rule's sensor identity. -/
theorem handleMessage_inserted_shape (cfg : MqttTopicConfig) (env : SqlEnv)
    (cache cache2 : LastValues) (payload : String) (v : QVal) (n : Nat)
    (h : handleMessage cfg env cache payload = ⟨.inserted v, cache2, n⟩) :
    cache2 = setLastValue cache cfg.sensorId v := by
  unfold handleMessage at h
  repeat' split at h
  all_goals simp only [MsgResult.mk.injEq] at h
  all_goals obtain ⟨h1, h2, h3⟩ := h
  all_goals first
    | (rw [MsgOutcome.inserted.injEq] at h1
       subst h1
       exact h2.symm)
    | exact absurd h1 (by simp)

/-- A topic already in m_seenTopics is ignored by the catch-all
handler: state unchanged, no upsert. -/
theorem handleAnyMessage_seen (env : SeenEnv) (st : SeenState) (t p : String)
    (h : st.seenTopics.contains t = true) :
    handleAnyMessage env st t p = ⟨st, 0⟩ := by
  have hm : t ∈ st.seenTopics := by simpa using h
  simp [handleAnyMessage, hm]

/-- Once a topic is in m_seenTopics, any further messages on it leave
the state unchanged and execute no upsert. -/
theorem runAny_seen_zero (env : SeenEnv) (st : SeenState) (t : String) (ps : List String)
    (h : st.seenTopics.contains t = true) :
    runAnyMessages env st (ps.map (fun p => (t, p))) = (st, 0) := by
  induction ps with
  | nil => rfl
  | cons p ps ih => simp [runAnyMessages, handleAnyMessage_seen env st t p h, ih]

/-- Handling a fresh topic with the database open and prepare
succeeding: the topic is appended to m_seenTopics and exactly one
upsert statement is executed. -/
theorem handleAnyMessage_fresh (env : SeenEnv) (st : SeenState) (t p : String)
    (hnew : st.seenTopics.contains t = false)
    (hdb : env.dbOpen = true) (hprep : env.prepOk = true) :
    (handleAnyMessage env st t p).state.seenTopics = st.seenTopics ++ [t] ∧
    (handleAnyMessage env st t p).upsertAttempts = 1 := by
  have hm : t ∉ st.seenTopics := by simpa using hnew
  by_cases hexec : env.execOk = true <;>
    simp [handleAnyMessage, hm, hdb, hprep, hexec]

/-- Every handleMessage call executes at most one INSERT, and each of
the per-message error outcomes leaves the cache untouched. -/
theorem handleMessage_error_spec (cfg : MqttTopicConfig) (env : SqlEnv)
    (cache : LastValues) (payload : String) :
    (handleMessage cfg env cache payload).insertAttempts ≤ 1 ∧
    ((handleMessage cfg env cache payload).outcome.isPerMessageError = true →
      (handleMessage cfg env cache payload).cache = cache) := by
  unfold handleMessage
  repeat' split
  all_goals simp [MsgOutcome.isPerMessageError]

/-- The dispatcher loop produces one outcome per inbound message:
no message stops the processing of the ones after it. -/
theorem processMessages_length (env : SqlEnv) (msgs : List (MqttTopicConfig × String)) :
    ∀ cache, (processMessages env cache msgs).2.length = msgs.length := by
  induction msgs with
  | nil => intro cache; rfl
  | cons m rest ih =>
    intro cache
    cases m
    simp [processMessages, ih]

/-- C1: with the scenario-A rule (path $.value, floating-point type)
and payload containing value 21.5, the payload parses as well-formed
JSON and the path resolves to the non-null value 21.5 — yet the value
handed to conversion, comparison and persistence is NOT the resolved
value: line 372 of part_005 declares a new local QVariant v shadowing
the outer one, so the outer v stays invalid, its conversion fails, and
handleMessage silently drops the message without comparing or
persisting anything. -/
theorem c1_shadowed_extraction_drops_value :
    (jsonParse scenarioAPayload).isSome = true ∧
    getValue ((jsonParse scenarioAPayload).getD .null) "$.value" = .vdouble ⟨43, 2⟩ ∧
    (getValue ((jsonParse scenarioAPayload).getD .null) "$.value").isNull = false ∧
    extractOuterValue scenarioARule.jsonpath scenarioAPayload = .ok .invalid ∧
    handleMessage scenarioARule envAllOk [] scenarioAPayload = ⟨.convertFailed, [], 0⟩ := by
  refine ⟨by decide, by decide, by decide, by decide, by decide⟩

/-- C2 counterexample: with the previous value 21.5 in the in-memory
cache, the candidate 21.50001 is judged changed (and therefore
persisted), because the cache path compares with QVariant equality
whose double-precision fuzz (factor 10^12) does not absorb a 1e-5
relative difference — the claim says this repeat is skipped no matter
where the previous value is found. -/
theorem c2_epsilon_repeat_cache_counterexample :
    compareToPreviousValue [(1, .vdouble ⟨43, 2⟩)] 1 (.vdouble ⟨2150001, 100000⟩)
      ⟨true, some (.vdouble ⟨43, 2⟩)⟩ = (false, 0) := by decide

/-- C2 (amended): floating-point comparisons are approximate on both
lookup paths but with different tolerances — a cache hit uses QVariant
equality (exact or double qFuzzyCompare, factor 10^12) and issues no
SELECT, while a cache miss compares the fetched row with the float
qFuzzyCompare (factor 10^5); non-floating-point values compare exactly
on both paths; consequently 21.50001 after 21.5 is skipped only when
the previous value comes from the store, not on a cache hit. -/
theorem c2_comparison_policy_amended :
    (∀ (q1 q2 : Frac) (sel : SelectOutcome),
      compareToPreviousValue [(1, .vdouble q2)] 1 (.vdouble q1) sel
        = (decide (q1 = q2) || qFuzzyCompareD q1 q2, 0)) ∧
    (∀ (q1 q2 : Frac),
      compareToPreviousValue [] 1 (.vdouble q1) ⟨true, some (.vdouble q2)⟩
        = (qFuzzyCompareF q1 q2, 1)) ∧
    (∀ (n m : Int) (sel : SelectOutcome),
      compareToPreviousValue [(1, .vint m)] 1 (.vint n) sel = (decide (n = m), 0)) ∧
    (∀ (n m : Int),
      compareToPreviousValue [] 1 (.vint n) ⟨true, some (.vint m)⟩ = (decide (n = m), 1)) ∧
    (∀ (s t : String) (sel : SelectOutcome),
      compareToPreviousValue [(1, .vstring t)] 1 (.vstring s) sel = (decide (s = t), 0)) ∧
    compareToPreviousValue [] 1 (.vdouble ⟨2150001, 100000⟩)
      ⟨true, some (.vdouble ⟨43, 2⟩)⟩ = (true, 1) ∧
    compareToPreviousValue [(1, .vdouble ⟨43, 2⟩)] 1 (.vdouble ⟨2150001, 100000⟩)
      ⟨true, some (.vdouble ⟨43, 2⟩)⟩ = (false, 0) := by
  refine ⟨?_, ?_, ?_, ?_, ?_, by decide, by decide⟩
  · intro q1 q2 sel
    simp [compareToPreviousValue, lookupLastValue, List.lookup, qvariantEq,
      QVal.isNumeric, QVal.isFloat, QVal.toRealQ]
  · intro q1 q2
    simp [compareToPreviousValue, lookupLastValue, List.lookup, QVal.typeOf, QVal.toFloat]
  · intro n m sel
    simp [compareToPreviousValue, lookupLastValue, List.lookup, qvariantEq,
      QVal.isNumeric, QVal.isFloat, QVal.toIntegral]
  · intro n m
    simp [compareToPreviousValue, lookupLastValue, List.lookup, QVal.typeOf, qvariantEq,
      QVal.isNumeric, QVal.isFloat, QVal.toIntegral]
  · intro s t sel
    simp [compareToPreviousValue, lookupLastValue, List.lookup, qvariantEq]

/-- C3 counterexample: a floating-point rule with extraction path empty
and scale factor 2 present receives "21.5"; the value stored and cached
is 21.5 itself, not the scaled 43 the claim requires. -/
theorem c3_unscaled_store_counterexample :
    handleMessage ⟨"sensors/temp", "", .tdouble, 2, some ⟨2, 1⟩⟩ envAllOk [] "21.5"
      = ⟨.inserted (.vdouble ⟨43, 2⟩), [(2, .vdouble ⟨43, 2⟩)], 1⟩ ∧
    Frac.mul ⟨43, 2⟩ ⟨2, 1⟩ = ⟨43, 1⟩ ∧
    (⟨43, 2⟩ : Frac) ≠ (⟨43, 1⟩ : Frac) := by decide

/-- C3 (amended): the scale factor is parsed into the rule
configuration (NaN/absent modelled as none) but the pipeline never
applies it — handleMessage behaves identically whatever the scale
field holds, so values are compared and stored unscaled. -/
theorem c3_scale_never_applied (cfg : MqttTopicConfig) (s : Option Frac) (env : SqlEnv)
    (cache : LastValues) (payload : String) :
    handleMessage ⟨cfg.topic, cfg.jsonpath, cfg.type, cfg.sensorId, s⟩ env cache payload
      = handleMessage ⟨cfg.topic, cfg.jsonpath, cfg.type, cfg.sensorId, none⟩ env cache payload :=
  rfl

/-- C4: when the partition key is absent from the in-memory cache and
the store's most-recent-row SELECT succeeds but returns no row, the
change decision is false (changed), so the first observation for any
key is persisted; exactly one SELECT is issued. -/
theorem c4_first_observation_changed (cache : LastValues) (sid : Int) (v : QVal)
    (sel : SelectOutcome) (hmiss : lookupLastValue cache sid = none)
    (hok : sel.execOk = true) (hrow : sel.row = none) :
    compareToPreviousValue cache sid v sel = (false, 1) := by
  unfold compareToPreviousValue
  rw [hmiss]
  simp [hok, hrow]

/-- C4 witness. -/
theorem c4_first_observation_changed_witness :
    compareToPreviousValue [] 7 (.vdouble ⟨43, 2⟩) ⟨true, none⟩ = (false, 1) :=
  c4_first_observation_changed [] 7 (.vdouble ⟨43, 2⟩) ⟨true, none⟩ rfl rfl rfl

/-- C5: after a successful persist (handleMessage ended in an executed
insert, which updates the cache), a change-detection call for the same
sensor with the identical value answers "unchanged" from the cache
alone — whatever the store would answer — and issues zero SELECTs. -/
theorem c5_cache_hit_after_persist (cfg : MqttTopicConfig) (env : SqlEnv)
    (cache cache2 : LastValues) (payload : String) (v : QVal) (n : Nat)
    (sel : SelectOutcome)
    (h : handleMessage cfg env cache payload = ⟨.inserted v, cache2, n⟩) :
    compareToPreviousValue cache2 cfg.sensorId v sel = (true, 0) := by
  have hc := handleMessage_inserted_shape cfg env cache cache2 payload v n h
  subst hc
  unfold compareToPreviousValue
  rw [lookupLastValue_set]
  simp [qvariantEq_refl]

/-- C5 witness. -/
theorem c5_cache_hit_after_persist_witness :
    compareToPreviousValue [(3, QVal.vstring "online")] 3 (.vstring "online")
      ⟨false, none⟩ = (true, 0) :=
  c5_cache_hit_after_persist ⟨"t", "", .tstring, 3, none⟩ envAllOk []
    [(3, .vstring "online")] "online" (.vstring "online") 1 ⟨false, none⟩ (by decide)

/-- C6: over any sequence of catch-all messages on one topic within a
process lifetime (database open, prepare succeeding), exactly one
upsert is executed in total; it happens on the first message, which
also adds the topic to the seen set; the messages after the first
execute zero upserts regardless of their payloads. -/
theorem c6_catch_all_single_upsert (env : SeenEnv) (st : SeenState) (t p0 : String)
    (ps : List String)
    (hdb : env.dbOpen = true) (hprep : env.prepOk = true)
    (hnew : st.seenTopics.contains t = false) :
    (runAnyMessages env st ((p0 :: ps).map (fun p => (t, p)))).2 = 1 ∧
    (handleAnyMessage env st t p0).upsertAttempts = 1 ∧
    (handleAnyMessage env st t p0).state.seenTopics.contains t = true := by
  obtain ⟨hseen, hcount⟩ := handleAnyMessage_fresh env st t p0 hnew hdb hprep
  have hcontains : (handleAnyMessage env st t p0).state.seenTopics.contains t = true := by
    rw [hseen]
    simp [List.elem_eq_mem]
  refine ⟨?_, hcount, hcontains⟩
  simp only [List.map_cons, runAnyMessages]
  rw [runAny_seen_zero env _ t ps hcontains]
  simp [hcount]

/-- C6 witness. -/
theorem c6_catch_all_single_upsert_witness :
    (runAnyMessages seenEnvOk ⟨[], []⟩ ((["x", "y"].map (fun p => ("a", p))))).2 = 1 :=
  (c6_catch_all_single_upsert seenEnvOk ⟨[], []⟩ "a" "x" ["y"] rfl rfl rfl).1

/-- C7 counterexample: the unconfigured topic devices/x/status arrives
twice with payloads "a" then "b"; the seen-table ends with one row
whose data is the FIRST payload "a", not the second as the claim
states (the second occurrence is filtered by the in-memory seen set
and performs no upsert). -/
theorem c7_second_payload_counterexample :
    (runAnyMessages seenEnvOk ⟨[], []⟩
        [("devices/x/status", "a"), ("devices/x/status", "b")]).1.table
      = [("devices/x/status", "a")] ∧
    ("a" : String) ≠ "b" := by decide

/-- C7 (amended): an unconfigured topic received twice in one process
lifetime with two different payloads ends with exactly one seen-table
row for that topic, whose data equals the FIRST payload; within a
process lifetime the record is not overwritten on later occurrences
(the upsert's overwrite only matters for topics seen in an earlier
process lifetime). -/
theorem c7_first_payload_kept (env : SeenEnv) (st : SeenState) (t p1 p2 : String)
    (hdb : env.dbOpen = true) (hprep : env.prepOk = true) (hexec : env.execOk = true)
    (hnew : st.seenTopics.contains t = false)
    (hnorow : st.table.all (fun r => r.1 != t) = true) :
    (runAnyMessages env st [(t, p1), (t, p2)]).1.table.filter (fun r => r.1 == t)
      = [(t, p1)] := by
  have hm : t ∉ st.seenTopics := by simpa using hnew
  have hany : st.table.any (fun r => r.1 == t) = false := by
    cases hcase : st.table.any (fun r => r.1 == t) with
    | false => rfl
    | true =>
      exfalso
      rw [List.any_eq_true] at hcase
      obtain ⟨r, hr, hrt⟩ := hcase
      simp only [List.all_eq_true] at hnorow
      have hne := hnorow r hr
      simp only [bne_iff_ne, ne_eq] at hne
      exact hne (by simpa using hrt)
  have h1 : handleAnyMessage env st t p1
      = ⟨⟨st.seenTopics ++ [t], (t, p1) :: st.table⟩, 1⟩ := by
    simp [handleAnyMessage, hm, hdb, hprep, hexec, upsertSeen, hany]
  have hcontains :
      ((⟨st.seenTopics ++ [t], (t, p1) :: st.table⟩ : SeenState)).seenTopics.contains t
        = true := by
    simp [List.elem_eq_mem]
  simp only [runAnyMessages, h1]
  rw [handleAnyMessage_seen env ⟨st.seenTopics ++ [t], (t, p1) :: st.table⟩ t p2 hcontains]
  simp only [List.filter]
  have : (t == t) = true := by simp
  rw [this]
  have hrest : st.table.filter (fun r => r.1 == t) = [] := by
    apply List.filter_eq_nil_iff.mpr
    intro r hr
    simp only [List.all_eq_true, bne_iff_ne, ne_eq] at hnorow
    simpa using hnorow r hr
  simp [hrest]

/-- C7 amended witness. -/
theorem c7_first_payload_kept_witness :
    (runAnyMessages seenEnvOk ⟨[], []⟩
        [("devices/x/status", "a"), ("devices/x/status", "b")]).1.table.filter
        (fun r => r.1 == "devices/x/status")
      = [("devices/x/status", "a")] :=
  c7_first_payload_kept seenEnvOk ⟨[], []⟩ "devices/x/status" "a" "b" rfl rfl rfl rfl rfl

/-- C8: with an empty extraction path, extraction never parses the
payload as JSON and cannot fail — it succeeds for every payload (well-
formed JSON or not), yielding the whole payload as a text value, and
that text value converts to the text type unchanged. -/
theorem c8_empty_path_extraction_total (payload : String) :
    extractOuterValue "" payload = .ok (.vstring payload) ∧
    (QVal.vstring payload).convert .tstring = some (.vstring payload) :=
  ⟨rfl, rfl⟩

/-- C9: per-message failures are non-fatal — whenever handleMessage
ends in a per-message error (parse failure, unresolved path, failed
conversion, failed insert), the last-value cache is left unchanged; no
call executes more than one INSERT (no retry); and the dispatcher loop
produces an outcome for every message in the feed, so one message's
failure never stops the ones after it. -/
theorem c9_per_message_errors_nonfatal (cfg : MqttTopicConfig) (env : SqlEnv)
    (cache : LastValues) (payload : String) (msgs : List (MqttTopicConfig × String)) :
    ((handleMessage cfg env cache payload).outcome.isPerMessageError = true →
      (handleMessage cfg env cache payload).cache = cache) ∧
    (handleMessage cfg env cache payload).insertAttempts ≤ 1 ∧
    (processMessages env cache msgs).2.length = msgs.length :=
  ⟨(handleMessage_error_spec cfg env cache payload).2,
   (handleMessage_error_spec cfg env cache payload).1,
   processMessages_length env msgs cache⟩

/-- C9 witness: a malformed payload on a JSON rule leaves a nonempty
cache exactly as it was. -/
theorem c9_per_message_errors_nonfatal_witness :
    (handleMessage scenarioARule envAllOk [(1, QVal.vint 5)] "nope").cache
      = [(1, QVal.vint 5)] ∧
    (handleMessage scenarioARule envAllOk [(1, QVal.vint 5)] "nope").insertAttempts ≤ 1 :=
  ⟨(c9_per_message_errors_nonfatal scenarioARule envAllOk [(1, .vint 5)] "nope" []).1
      (by decide),
   (c9_per_message_errors_nonfatal scenarioARule envAllOk [(1, .vint 5)] "nope" []).2.1⟩

/-- C10: when the partition key misses the cache and the SELECT for the
most recent value fails, the change decision is false (changed), so the
message is persisted as a new row even if the stored value is in fact
identical to the candidate. -/
theorem c10_select_failure_changed (cache : LastValues) (sid : Int) (v : QVal)
    (sel : SelectOutcome) (hmiss : lookupLastValue cache sid = none)
    (hfail : sel.execOk = false) :
    compareToPreviousValue cache sid v sel = (false, 1) := by
  unfold compareToPreviousValue
  rw [hmiss]
  simp [hfail]

/-- C10 witness: even with the identical value sitting in the store's
row, a failed SELECT makes the detector report "changed". -/
theorem c10_select_failure_changed_witness :
    compareToPreviousValue [] 7 (.vdouble ⟨43, 2⟩)
      ⟨false, some (.vdouble ⟨43, 2⟩)⟩ = (false, 1) :=
  c10_select_failure_changed [] 7 (.vdouble ⟨43, 2⟩)
    ⟨false, some (.vdouble ⟨43, 2⟩)⟩ rfl rfl

end QMqtt2Sql
